import Mathlib

/-!
Verification development for the Flappy-Bird Q-learning companion server
(`nn.py`): a websocket session handler that dispatches tagged text messages
to a per-connection neural-network model.

The embedding models:
* Python string operations on code points (`List Char`);
* `np.fromstring(data, sep=',')` text-mode parsing: numbers are parsed
  greedily left to right, separated by commas (whitespace tolerated); at the
  first point where no further number can be read, parsing stops and the
  values read so far are returned (numpy emits an "unmatched data"
  DeprecationWarning, not an exception).  `inf`/`nan` literals and hex float
  syntax are not modelled; parsed values are represented exactly as rationals
  (float rounding is not modelled - no claim inspects rounded values);
* `.reshape` arity failures as a `FormatError` fault (`ValueError`);
* the Keras model as an opaque state type `M` with a pure `predict`
  function and a single-step `fit` update supplied by a `ModelApi`
  structure; the network architecture fixes 7 inputs and 2 outputs
  (`Dense(units = 2)` output layer), recorded as the `predict_len` law;
* `str(float)` as a decimal printer `floatStr` (sign, integer part, dot,
  fractional digits); the spec guarantees no precision contract for
  float-to-string conversion beyond "default numeric text representation";
* the handler loop over a finite list of delivered messages, the end of the
  list standing for the peer closing the transport (recv raising
  ConnectionClosed), with the try/except/finally structure made explicit.
-/

namespace NN

/-! ### Python string primitives -/

/-- Python `str.lower` restricted to ASCII: uppercase letters are shifted by
32, all other code points kept.  (Unicode case folding differs from this on
exotic code points, but no non-ASCII character lowercases into the letters
of "exit", the only string the handler compares against.) -/
def lowerChar (c : Char) : Char :=
  if 'A' ≤ c ∧ c ≤ 'Z' then Char.ofNat (c.toNat + 32) else c

/-- Python `message.lower()`. -/
def strLower (s : String) : String := ⟨s.data.map lowerChar⟩

/-- Python substring containment `pat in s` on code-point lists. -/
def listContains (pat : List Char) : List Char → Bool
  | [] => pat.isPrefixOf []
  | c :: r => pat.isPrefixOf (c :: r) || listContains pat r

/-- Python `pat in s` for strings. -/
def strContains (s pat : String) : Bool := listContains pat.data s.data

/-- Python slice `s[n:]` (by code points). -/
def strDrop (s : String) (n : Nat) : String := ⟨s.data.drop n⟩

/-- The single-quote character used by the echo reply format. -/
def squote : String := String.singleton (Char.ofNat 39)

/-! ### `np.fromstring(data, sep=',')` text parsing -/

/-- strtod-style whitespace skipping. -/
def skipWs (s : List Char) : List Char :=
  s.dropWhile (fun c => c == ' ' || c == '\t')

/-- Value of a block of decimal digit characters. -/
def digitsToNat (ds : List Char) : Nat :=
  ds.foldl (fun a c => 10 * a + (c.toNat - 48)) 0

/-- Optional exponent suffix (`e`/`E`, optional sign, digits); if no digits
follow the `e`, the number ends before it (strtod behaviour). -/
def parseExp (mant : ℚ) (s : List Char) : ℚ × List Char :=
  match s with
  | [] => (mant, [])
  | c :: r =>
    if c == 'e' || c == 'E' then
      let sgnr : Bool × List Char :=
        match r with
        | '-' :: rr => (true, rr)
        | '+' :: rr => (false, rr)
        | _ => (false, r)
      let eds := sgnr.2.takeWhile Char.isDigit
      if eds.isEmpty then (mant, s)
      else
        let e := digitsToNat eds
        (if sgnr.1 then mant / 10 ^ e else mant * 10 ^ e,
         sgnr.2.dropWhile Char.isDigit)
    else (mant, s)

/-- strtod-style parse of one floating-point literal: leading whitespace,
optional sign, digits with optional decimal point and fraction, optional
exponent.  Returns the value and the unconsumed remainder, or `none` when no
number can be read at this position. -/
def parseNumber (s0 : List Char) : Option (ℚ × List Char) :=
  let s := skipWs s0
  let sgns : Bool × List Char :=
    match s with
    | '-' :: r => (true, r)
    | '+' :: r => (false, r)
    | _ => (false, s)
  let ip := sgns.2.takeWhile Char.isDigit
  let s2 := sgns.2.dropWhile Char.isDigit
  let fps : List Char × List Char :=
    match s2 with
    | '.' :: r => (r.takeWhile Char.isDigit, r.dropWhile Char.isDigit)
    | _ => ([], s2)
  if ip.isEmpty && fps.1.isEmpty then none
  else
    let mag : ℚ := (digitsToNat ip : ℚ) + (digitsToNat fps.1 : ℚ) / 10 ^ fps.1.length
    some (parseExp (if sgns.1 then -mag else mag) fps.2)

/-- Fuelled loop of `np.fromstring` text mode: read a number, then expect a
comma separator (whitespace tolerated); stop - keeping what was read - when
no number or no separator follows. -/
def fromstringAux : Nat → List Char → List ℚ
  | 0, _ => []
  | fuel + 1, s =>
    match parseNumber s with
    | none => []
    | some vr =>
      match skipWs vr.2 with
      | ',' :: r2 => vr.1 :: fromstringAux fuel r2
      | _ => [vr.1]

/-- Embedding of `np.fromstring(data, sep=',')`.  The fuel `length + 1` is never
exhausted: every parsed element consumes at least one character. -/
def fromstring (data : String) : List ℚ :=
  fromstringAux (data.data.length + 1) data.data

/-! ### Field-level view of a payload (for stating the Codec contract) -/

/-- Split a code-point list on commas (every comma separates, so `n` commas
give `n + 1` fields). -/
def splitFieldsAux (acc : List Char) : List Char → List (List Char)
  | [] => [acc.reverse]
  | c :: r =>
    if c == ',' then acc.reverse :: splitFieldsAux [] r
    else splitFieldsAux (c :: acc) r

/-- The comma-separated fields of a payload. -/
def splitFields (s : String) : List (List Char) := splitFieldsAux [] s.data

/-- A field is numeric when one floating-point literal consumes it entirely
(up to surrounding whitespace). -/
def isNumericField (f : List Char) : Bool :=
  match parseNumber f with
  | some vr => (skipWs vr.2).isEmpty
  | none => false

/-! ### `str(float)` and `','.join` -/

/-- Digit character of a value below ten. -/
def dChar (n : Nat) : Char := Char.ofNat (48 + n)

/-- Decimal digit characters of a natural number, most significant first
(fuelled; `natDigits` supplies enough fuel). -/
def natDigitsAux : Nat → Nat → List Char
  | 0, _ => []
  | fuel + 1, n =>
    if n < 10 then [dChar n]
    else natDigitsAux fuel (n / 10) ++ [dChar (n % 10)]

/-- Decimal digit string of a natural number (`"0"` for zero). -/
def natDigits (n : Nat) : List Char := natDigitsAux (n + 1) n

/-- Left-pad with zeros to the given width. -/
def padZeros (k : Nat) (l : List Char) : List Char :=
  List.replicate (k - l.length) '0' ++ l

/-- Strip trailing zero digits. -/
def stripTrailZeros (l : List Char) : List Char :=
  (l.reverse.dropWhile (fun c => c == '0')).reverse

/-- The fractional digits printed for a float value: 17 fractional digits
of the magnitude, trailing zeros stripped, at least one digit kept - so
integral values print like `2.0`. -/
def fracDigits (q : ℚ) : List Char :=
  if stripTrailZeros (padZeros 17 (natDigits ((( |q| - ((|q|).floor : ℚ)) * 10 ^ 17).floor.toNat))) = []
  then ['0']
  else stripTrailZeros (padZeros 17 (natDigits ((( |q| - ((|q|).floor : ℚ)) * 10 ^ 17).floor.toNat)))

/-- Model of Python `str` on a float value: sign, integer part, a dot, and
the fractional digits.  The spec's Codec grants no precision contract
beyond the platform default conversion, and no claim inspects the printed
digits; what matters is that the output is one numeric token without
commas. -/
def floatStr (q : ℚ) : String :=
  (if q < 0 then "-" else "") ++ String.mk (natDigits ((|q|).floor.toNat))
    ++ "." ++ String.mk (fracDigits q)

/-- Python `','.join`. -/
def joinComma : List String → String
  | [] => ""
  | [s] => s
  | s :: r :: rest => s ++ "," ++ joinComma (r :: rest)

/-- Embedding of `','.join(map(str, vals))`. -/
def encode (vals : List ℚ) : String := joinComma (vals.map floatStr)

/-! ### The model capability and the two numeric operations -/

/-- The `ValueError` raised by `.reshape` on an arity mismatch (the spec's
`FormatError`). -/
inductive Fault where
  | formatError (data : String)
deriving DecidableEq

/-- The opaque trainable function approximator built by
`create_and_compile_model`, abstracted over its weight state `M`:
`init` is the freshly compiled model, `predictFn` the forward pass (pure:
Keras `model.predict` reads the weights and never writes them), `fitStep`
one gradient update (`model.fit(x, y, epochs=1)` on a single sample).
`predict_len` records the architecture: the output layer is
`Dense(units = 2)`, so the flattened prediction for a 7-vector has exactly
two entries. -/
structure ModelApi (M : Type) where
  init : M
  predictFn : M → List ℚ → List ℚ
  fitStep : M → List ℚ → List ℚ → M
  predict_len : ∀ mdl v, v.length = 7 → (predictFn mdl v).length = 2

/-- Embedding of `predict(model, data)`:
`input_array = np.fromstring(data, sep=',').reshape(1, 7)` (the reshape
raises unless exactly 7 values were read), then
`','.join(map(str, model.predict(input_array).flatten()))`. -/
def predict {M : Type} (api : ModelApi M) (model : M) (data : String) :
    Except Fault String :=
  let parsed := fromstring data
  if parsed.length = 7 then
    .ok (encode (api.predictFn model parsed))
  else .error (.formatError data)

/-- Embedding of `train(model, data)`:
`parsed = np.fromstring(data, sep=',')`;
`x = np.array(parsed[:7]).reshape(1, 7)`;
`y = np.array(parsed[7:9]).reshape(1, 2)`; `model.fit(x, y, epochs=1)`.
Each reshape raises unless its slice has the exact arity. -/
def train {M : Type} (api : ModelApi M) (model : M) (data : String) :
    Except Fault M :=
  let parsed := fromstring data
  let x := parsed.take 7
  if x.length = 7 then
    let y := (parsed.drop 7).take 2
    if y.length = 2 then .ok (api.fitStep model x y)
    else .error (.formatError data)
  else .error (.formatError data)

/-! ### The session handler -/

def PREDICT_TAG : String := "predict:"
def PREDICT_TAG_LEN : Nat := PREDICT_TAG.length
def TRAIN_TAG : String := "train:"
def TRAIN_TAG_LEN : Nat := TRAIN_TAG.length

/-- What one loop iteration produces: the messages sent, the model state
afterwards, and whether the loop was left by `break`. -/
structure StepOut (M : Type) where
  sends : List String
  model : M
  closed : Bool
deriving DecidableEq

/-- One iteration of the handler loop body on a received message:
the case-insensitive exit check first, then predict-tag containment, then
train-tag containment, then the echo fallback; faults from
`predict`/`train` propagate. -/
def handleMessage {M : Type} (api : ModelApi M) (model : M)
    (message : String) : Except Fault (StepOut M) :=
  if strLower message = "exit" then
    .ok ⟨["Goodbye!"], model, true⟩
  else if strContains message PREDICT_TAG then
    match predict api model (strDrop message PREDICT_TAG_LEN) with
    | .ok r => .ok ⟨["predict:" ++ r], model, false⟩
    | .error f => .error f
  else if strContains message TRAIN_TAG then
    match train api model (strDrop message TRAIN_TAG_LEN) with
    | .ok m2 => .ok ⟨["Train done"], m2, false⟩
    | .error f => .error f
  else
    .ok ⟨["Processed message: " ++ squote ++ message ++ squote], model, false⟩

/-- How the `while True` loop ends. -/
inductive SessionEnd where
  | gracefulExit
  | transportClosed
  | fault (f : Fault)
deriving DecidableEq

structure LoopResult (M : Type) where
  sends : List String
  model : M
  ending : SessionEnd

/-- The handler loop over the finite list of messages the peer delivers
before closing the connection: an empty remainder is `recv` raising
`ConnectionClosed`; a fault aborts the loop at once, unsent and with the
remaining messages unprocessed. -/
def runLoop {M : Type} (api : ModelApi M) : M → List String → LoopResult M
  | model, [] => ⟨[], model, .transportClosed⟩
  | model, msg :: rest =>
    match handleMessage api model msg with
    | .error f => ⟨[], model, .fault f⟩
    | .ok out =>
      if out.closed then ⟨out.sends, out.model, .gracefulExit⟩
      else
        let r := runLoop api out.model rest
        ⟨out.sends ++ r.sends, r.model, r.ending⟩

/-- Whether the handler coroutine returns normally or re-raises a fault. -/
inductive Outcome where
  | returned
  | raised (f : Fault)
deriving DecidableEq

structure SessionResult (M : Type) where
  sends : List String
  finalModel : M
  ending : SessionEnd
  outcome : Outcome
  cleanupRan : Bool

/-- The whole `handler` coroutine: build a fresh model, run the loop inside
`try`, catch only `websockets.exceptions.ConnectionClosed` (the transport
close), and always execute the `finally` cleanup (log the disconnect; the
per-connection model goes out of scope).  Any other exception - here a
decode `Fault` - is re-raised after the cleanup. -/
def runHandler {M : Type} (api : ModelApi M) (msgs : List String) :
    SessionResult M :=
  let r := runLoop api api.init msgs
  { sends := r.sends
    finalModel := r.model
    ending := r.ending
    outcome :=
      match r.ending with
      | .fault f => .raised f
      | .transportClosed => .returned
      | .gracefulExit => .returned
    cleanupRan := true }

/-! ### Statement-side definitions (from the words of the spec) -/

/-- Split a list around the first occurrence of `pat`, returning the part
before and the part after that occurrence. -/
def splitFirst (pat : List Char) : List Char → Option (List Char × List Char)
  | [] => if pat.isPrefixOf [] then some ([], []) else none
  | c :: r =>
    if pat.isPrefixOf (c :: r) then some ([], (c :: r).drop pat.length)
    else (splitFirst pat r).map (fun ba => (c :: ba.1, ba.2))

/-- Modelled from the spec: "strip the tag, decode the remainder" read as
removing the occurrence of the tag itself from the message and keeping the
rest (before and after the occurrence) as the payload; the message is
returned unchanged when the tag does not occur.  This is the payload
extraction the claim describes, to be compared with the implementation's
fixed-length `strDrop`. -/
def stripTagSpec (tag m : String) : String :=
  match splitFirst tag.data m.data with
  | some ba => ⟨ba.1 ++ ba.2⟩
  | none => m

/-- Characters a printed numeric value may use. -/
def numericChars : List Char := '-' :: '.' :: "0123456789".data

/-- A nonempty token of numeric characters (in particular comma-free). -/
def numericField (s : String) : Prop :=
  s.data ≠ [] ∧ ∀ c ∈ s.data, c ∈ numericChars

/-- A body consisting of exactly two comma-separated numeric values. -/
def isTwoNumericCSV (s : String) : Prop :=
  ∃ f1 f2, s = f1 ++ "," ++ f2 ∧ numericField f1 ∧ numericField f2

/-- A trivial instantiation of the model capability (state `Unit`, constant
zero prediction), used to evaluate the handler on concrete inputs. -/
def constApi : ModelApi Unit where
  init := ()
  predictFn := fun _ _ => [0, 0]
  fitStep := fun _ _ _ => ()
  predict_len := fun _ _ _ => rfl

/-! ### Helper lemmas -/

lemma strLower_data (m : String) : (strLower m).data = m.data.map lowerChar := rfl

lemma isPrefixOf_le_length :
    ∀ p s : List Char, p.isPrefixOf s = true → p.length ≤ s.length := by
  intro p
  induction p with
  | nil => intro s _; exact Nat.zero_le _
  | cons a as ih =>
    intro s h
    cases s with
    | nil => simp [List.isPrefixOf] at h
    | cons b bs =>
      simp only [List.isPrefixOf, Bool.and_eq_true] at h
      simpa [List.length_cons] using Nat.succ_le_succ (ih bs h.2)

lemma listContains_le_length (p : List Char) :
    ∀ s : List Char, listContains p s = true → p.length ≤ s.length := by
  intro s
  induction s with
  | nil => intro h; exact isPrefixOf_le_length p [] h
  | cons c r ih =>
    intro h
    simp only [listContains, Bool.or_eq_true] at h
    rcases h with h | h
    · exact isPrefixOf_le_length p (c :: r) h
    · exact Nat.le_succ_of_le (ih h)

lemma strContains_le_length (m t : String) (h : strContains m t = true) :
    t.data.length ≤ m.data.length :=
  listContains_le_length t.data m.data h

/-- A message containing a string of five or more characters cannot
lowercase to the four-character string "exit". -/
lemma contains_long_not_exit (m t : String) (h : strContains m t = true)
    (hlen : 5 ≤ t.data.length) : strLower m ≠ "exit" := by
  intro heq
  have h4 : m.data.length = 4 := by
    have := congrArg (fun s => s.data.length) heq
    simpa [strLower_data] using this
  have := strContains_le_length m t h
  omega

lemma dChar_mem_digits : ∀ n, n < 10 → dChar n ∈ "0123456789".data := by decide

lemma natDigitsAux_mem_digits :
    ∀ fuel n, ∀ c ∈ natDigitsAux fuel n, c ∈ "0123456789".data := by
  intro fuel
  induction fuel with
  | zero => intro n c hc; simp [natDigitsAux] at hc
  | succ f ih =>
    intro n c hc
    rw [show natDigitsAux (f + 1) n =
        if n < 10 then [dChar n]
        else natDigitsAux f (n / 10) ++ [dChar (n % 10)] from rfl] at hc
    by_cases h : n < 10
    · rw [if_pos h] at hc
      have hceq := List.mem_singleton.mp hc
      subst hceq
      exact dChar_mem_digits n h
    · rw [if_neg h] at hc
      rcases List.mem_append.mp hc with hc2 | hc2
      · exact ih (n / 10) c hc2
      · have hceq := List.mem_singleton.mp hc2
        subst hceq
        exact dChar_mem_digits (n % 10) (Nat.mod_lt n (by omega))

lemma natDigits_mem_digits (n : Nat) :
    ∀ c ∈ natDigits n, c ∈ "0123456789".data :=
  natDigitsAux_mem_digits (n + 1) n

lemma natDigits_ne_nil (n : Nat) : natDigits n ≠ [] := by
  unfold natDigits natDigitsAux
  by_cases h : n < 10 <;> simp [h]

lemma padZeros_mem (k : Nat) (l : List Char) :
    ∀ c ∈ padZeros k l, c = '0' ∨ c ∈ l := by
  intro c hc
  simp only [padZeros, List.mem_append, List.mem_replicate] at hc
  rcases hc with hc | hc
  · exact Or.inl hc.2
  · exact Or.inr hc

lemma stripTrailZeros_subset (l : List Char) :
    ∀ c ∈ stripTrailZeros l, c ∈ l := by
  intro c hc
  unfold stripTrailZeros at hc
  rw [List.mem_reverse] at hc
  have := (List.dropWhile_sublist (fun ch => ch == '0')).subset hc
  exact List.mem_reverse.mp this

lemma fracDigits_mem (q : ℚ) :
    ∀ c ∈ fracDigits q, c ∈ numericChars := by
  intro c hc
  unfold fracDigits at hc
  split at hc
  · have hceq := List.mem_singleton.mp hc
    subst hceq; decide
  · have h1 := stripTrailZeros_subset _ c hc
    rcases padZeros_mem _ _ c h1 with h2 | h2
    · subst h2; decide
    · have := natDigits_mem_digits _ c h2
      unfold numericChars
      exact List.mem_cons_of_mem _ (List.mem_cons_of_mem _ this)

lemma floatStr_numericField (q : ℚ) : numericField (floatStr q) := by
  unfold numericField
  constructor
  · intro h
    unfold floatStr at h
    simp only [String.data_append] at h
    have h1 := List.append_eq_nil.mp h
    have h2 := List.append_eq_nil.mp h1.1
    exact absurd h2.2 (by decide)
  · intro c hc
    unfold floatStr at hc
    simp only [String.data_append, List.mem_append] at hc
    rcases hc with ((hs | hi) | hd) | hf
    · split at hs
      · have hceq := List.mem_singleton.mp hs
        subst hceq; decide
      · rw [show ("" : String).data = [] from rfl] at hs
        exact absurd hs (List.not_mem_nil c)
    · have := natDigits_mem_digits _ c hi
      unfold numericChars
      exact List.mem_cons_of_mem _ (List.mem_cons_of_mem _ this)
    · have hceq := List.mem_singleton.mp hd
      subst hceq; decide
    · exact fracDigits_mem q c hf

lemma joinComma_pair (a b : String) : joinComma [a, b] = a ++ "," ++ b := rfl

lemma encode_two_csv (l : List ℚ) (h : l.length = 2) :
    isTwoNumericCSV (encode l) := by
  obtain ⟨a, b, rfl⟩ := List.length_eq_two.mp h
  unfold isTwoNumericCSV
  exact ⟨floatStr a, floatStr b, rfl, floatStr_numericField a, floatStr_numericField b⟩

/-- The echo branch: no recognized tag and not an exit message. -/
lemma handleMessage_echo {M : Type} (api : ModelApi M) (mdl : M) (m : String)
    (hp : strContains m PREDICT_TAG = false)
    (ht : strContains m TRAIN_TAG = false)
    (he : strLower m ≠ "exit") :
    handleMessage api mdl m =
      .ok ⟨["Processed message: " ++ squote ++ m ++ squote], mdl, false⟩ := by
  unfold handleMessage
  rw [if_neg he, if_neg (by simp [hp]), if_neg (by simp [ht])]

/-- Anatomy of a successful iteration: exactly one message is sent, the
loop closes exactly on an exit message, and the model can change only when
the train branch was dispatched. -/
lemma handleMessage_ok_anatomy {M : Type} (api : ModelApi M) (mdl : M)
    (msg : String) (out : StepOut M)
    (h : handleMessage api mdl msg = .ok out) :
    (∃ s, out.sends = [s]) ∧
    (out.closed = true ↔ strLower msg = "exit") ∧
    (strContains msg TRAIN_TAG = false → out.model = mdl) ∧
    (out.model = mdl ∨
      (strLower msg ≠ "exit" ∧ strContains msg PREDICT_TAG = false ∧
        strContains msg TRAIN_TAG = true)) := by
  unfold handleMessage at h
  by_cases he : strLower msg = "exit"
  · rw [if_pos he] at h
    injection h with h2
    subst h2
    exact ⟨⟨_, rfl⟩, by simp [he], fun _ => rfl, Or.inl rfl⟩
  · rw [if_neg he] at h
    by_cases hp : strContains msg PREDICT_TAG = true
    · rw [if_pos hp] at h
      cases hpr : predict api mdl (strDrop msg PREDICT_TAG_LEN) with
      | ok r =>
        rw [hpr] at h
        injection h with h2
        subst h2
        exact ⟨⟨_, rfl⟩, by simp [he], fun _ => rfl, Or.inl rfl⟩
      | error f =>
        rw [hpr] at h
        exact absurd h (by simp)
    · rw [if_neg hp] at h
      have hp2 : strContains msg PREDICT_TAG = false := by
        revert hp; cases strContains msg PREDICT_TAG <;> simp
      by_cases ht : strContains msg TRAIN_TAG = true
      · rw [if_pos ht] at h
        cases htr : train api mdl (strDrop msg TRAIN_TAG_LEN) with
        | ok m2 =>
          rw [htr] at h
          injection h with h2
          subst h2
          refine ⟨⟨_, rfl⟩, by simp [he], ?_, Or.inr ⟨he, hp2, ht⟩⟩
          intro hf
          rw [hf] at ht
          exact absurd ht (by simp)
        | error f =>
          rw [htr] at h
          exact absurd h (by simp)
      · rw [if_neg ht] at h
        injection h with h2
        subst h2
        exact ⟨⟨_, rfl⟩, by simp [he], fun _ => rfl, Or.inl rfl⟩

/-- Processing a block of messages none of which mutates the model or ends
the session just prepends their responses to whatever the rest of the
session produces. -/
lemma runLoop_nonmutating {M : Type} (api : ModelApi M) (mdl : M) :
    ∀ mids : List String,
      (∀ mid ∈ mids, ∃ s, handleMessage api mdl mid = .ok ⟨[s], mdl, false⟩) →
      ∀ tail : List String, ∃ midSends,
        runLoop api mdl (mids ++ tail) =
          ⟨midSends ++ (runLoop api mdl tail).sends,
           (runLoop api mdl tail).model, (runLoop api mdl tail).ending⟩ := by
  intro mids
  induction mids with
  | nil => exact fun _ tail => ⟨[], rfl⟩
  | cons mid rest ih =>
    intro h tail
    obtain ⟨s, hs⟩ := h mid (List.mem_cons_self mid rest)
    obtain ⟨ms, hms⟩ :=
      ih (fun m2 hm2 => h m2 (List.mem_cons_of_mem mid hm2)) tail
    refine ⟨s :: ms, ?_⟩
    rw [List.cons_append]
    simp only [runLoop]
    rw [hs]
    simp only [hms]
    rfl

/-- A successfully handled message that is neither an exit nor dispatched
to the train branch sends one response and leaves the model unchanged with
the loop open. -/
lemma handleMessage_ok_shape {M : Type} (api : ModelApi M) (mdl : M)
    (msg : String) (out : StepOut M)
    (h : handleMessage api mdl msg = .ok out)
    (hex : strLower msg ≠ "exit")
    (htr : strContains msg TRAIN_TAG = false) :
    ∃ s, handleMessage api mdl msg = .ok ⟨[s], mdl, false⟩ := by
  unfold handleMessage at h ⊢
  rw [if_neg hex] at h ⊢
  by_cases hp : strContains msg PREDICT_TAG = true
  · rw [if_pos hp] at h ⊢
    cases hpr : predict api mdl (strDrop msg PREDICT_TAG_LEN) with
    | ok r =>
      exact ⟨"predict:" ++ r, rfl⟩
    | error f =>
      rw [hpr] at h
      exact absurd h (by simp)
  · rw [if_neg hp, if_neg (by simp [htr])] at h ⊢
    exact ⟨"Processed message: " ++ squote ++ msg ++ squote, rfl⟩

/-! ### The claims -/

/-- Claim C1: for every received message containing the tag "predict:"
whose payload decodes to a 7-element numeric vector, the handler replies
with "predict:" followed by exactly 2 comma-separated numeric values (the
encoded output of the model), and sends exactly one response (the sends
list of the step is a singleton). -/
theorem predict_request_two_numeric_csv {M : Type} (api : ModelApi M)
    (mdl : M) (m : String)
    (htag : strContains m PREDICT_TAG = true)
    (hlen : (fromstring (strDrop m PREDICT_TAG_LEN)).length = 7) :
    handleMessage api mdl m =
      .ok ⟨["predict:" ++
            encode (api.predictFn mdl (fromstring (strDrop m PREDICT_TAG_LEN)))],
           mdl, false⟩ ∧
    isTwoNumericCSV
      (encode (api.predictFn mdl (fromstring (strDrop m PREDICT_TAG_LEN)))) := by
  have hne : strLower m ≠ "exit" :=
    contains_long_not_exit m PREDICT_TAG htag (by decide)
  have hpr : predict api mdl (strDrop m PREDICT_TAG_LEN) =
      .ok (encode (api.predictFn mdl (fromstring (strDrop m PREDICT_TAG_LEN)))) := by
    simp only [predict]
    rw [if_pos hlen]
  constructor
  · unfold handleMessage
    rw [if_neg hne, if_pos htag, hpr]
  · exact encode_two_csv _ (api.predict_len mdl _ hlen)

theorem predict_request_two_numeric_csv_witness :
    strContains "predict:1,2,3,4,5,6,7" PREDICT_TAG = true ∧
    (fromstring (strDrop "predict:1,2,3,4,5,6,7" PREDICT_TAG_LEN)).length = 7 ∧
    (handleMessage constApi () "predict:1,2,3,4,5,6,7" =
      .ok ⟨["predict:" ++
            encode (constApi.predictFn ()
              (fromstring (strDrop "predict:1,2,3,4,5,6,7" PREDICT_TAG_LEN)))],
           (), false⟩ ∧
     isTwoNumericCSV
       (encode (constApi.predictFn ()
         (fromstring (strDrop "predict:1,2,3,4,5,6,7" PREDICT_TAG_LEN))))) :=
  ⟨by decide, by decide,
   predict_request_two_numeric_csv constApi () "predict:1,2,3,4,5,6,7"
     (by decide) (by decide)⟩

/-- Claim C2: for every received message dispatched to the train branch
(it contains "train:" and - per the else-if chain the cited spec sentence
describes - not "predict:") whose payload decodes to a 9-element numeric
vector, the handler splits it into a 7-element input and a 2-element
target, invokes Model.fit for exactly one training step (the new model
state is a single `fitStep` application), and replies with the literal
string "Train done" - a constant response that leaks no training
internals. -/
theorem train_request_single_step_ack {M : Type} (api : ModelApi M)
    (mdl : M) (m : String)
    (hp : strContains m PREDICT_TAG = false)
    (ht : strContains m TRAIN_TAG = true)
    (hlen : (fromstring (strDrop m TRAIN_TAG_LEN)).length = 9) :
    handleMessage api mdl m =
      .ok ⟨["Train done"],
           api.fitStep mdl ((fromstring (strDrop m TRAIN_TAG_LEN)).take 7)
             (((fromstring (strDrop m TRAIN_TAG_LEN)).drop 7).take 2),
           false⟩ ∧
    ((fromstring (strDrop m TRAIN_TAG_LEN)).take 7).length = 7 ∧
    (((fromstring (strDrop m TRAIN_TAG_LEN)).drop 7).take 2).length = 2 := by
  have hne : strLower m ≠ "exit" :=
    contains_long_not_exit m TRAIN_TAG ht (by decide)
  have h7 : ((fromstring (strDrop m TRAIN_TAG_LEN)).take 7).length = 7 := by
    simp [List.length_take, hlen]
  have h2 : (((fromstring (strDrop m TRAIN_TAG_LEN)).drop 7).take 2).length = 2 := by
    simp [List.length_take, List.length_drop, hlen]
  have htr : train api mdl (strDrop m TRAIN_TAG_LEN) =
      .ok (api.fitStep mdl ((fromstring (strDrop m TRAIN_TAG_LEN)).take 7)
        (((fromstring (strDrop m TRAIN_TAG_LEN)).drop 7).take 2)) := by
    simp only [train]
    rw [if_pos h7, if_pos h2]
  refine ⟨?_, h7, h2⟩
  unfold handleMessage
  rw [if_neg hne, if_neg (by simp [hp]), if_pos ht, htr]

theorem train_request_single_step_ack_witness :
    strContains "train:1,2,3,4,5,6,7,8,9" PREDICT_TAG = false ∧
    strContains "train:1,2,3,4,5,6,7,8,9" TRAIN_TAG = true ∧
    (fromstring (strDrop "train:1,2,3,4,5,6,7,8,9" TRAIN_TAG_LEN)).length = 9 ∧
    (handleMessage constApi () "train:1,2,3,4,5,6,7,8,9" =
      .ok ⟨["Train done"],
           constApi.fitStep ()
             ((fromstring (strDrop "train:1,2,3,4,5,6,7,8,9" TRAIN_TAG_LEN)).take 7)
             (((fromstring (strDrop "train:1,2,3,4,5,6,7,8,9" TRAIN_TAG_LEN)).drop 7).take 2),
           false⟩ ∧
     ((fromstring (strDrop "train:1,2,3,4,5,6,7,8,9" TRAIN_TAG_LEN)).take 7).length = 7 ∧
     (((fromstring (strDrop "train:1,2,3,4,5,6,7,8,9" TRAIN_TAG_LEN)).drop 7).take 2).length = 2) :=
  ⟨by decide, by decide, by decide,
   train_request_single_step_ack constApi () "train:1,2,3,4,5,6,7,8,9"
     (by decide) (by decide) (by decide)⟩

/-- Claim C5: a message that case-insensitively equals "exit" always gets
the reply "Goodbye!" and terminates the session loop, whatever the model
state reached by prior activity and whatever messages were still to come;
the check runs before any tag dispatch. -/
theorem exit_terminates_session {M : Type} (api : ModelApi M) (mdl : M)
    (m : String) (rest : List String)
    (h : strLower m = "exit") :
    handleMessage api mdl m = .ok ⟨["Goodbye!"], mdl, true⟩ ∧
    runLoop api mdl (m :: rest) = ⟨["Goodbye!"], mdl, .gracefulExit⟩ := by
  have h1 : handleMessage api mdl m = .ok ⟨["Goodbye!"], mdl, true⟩ := by
    unfold handleMessage
    rw [if_pos h]
  refine ⟨h1, ?_⟩
  simp only [runLoop]
  rw [h1]
  rfl

theorem exit_terminates_session_witness :
    strLower "EXIT" = "exit" ∧
    (handleMessage constApi () "EXIT" = .ok ⟨["Goodbye!"], (), true⟩ ∧
     runLoop constApi () ["EXIT", "train:1,2,3,4,5,6,7,8,9"] =
       ⟨["Goodbye!"], (), .gracefulExit⟩) :=
  ⟨by decide,
   exit_terminates_session constApi () "EXIT" ["train:1,2,3,4,5,6,7,8,9"]
     (by decide)⟩

/-- Claim C6: a message not containing "predict:" or "train:" and not
case-insensitively equal to "exit" is echoed verbatim inside the frame
"Processed message: quote message quote". -/
theorem echo_fallback_verbatim {M : Type} (api : ModelApi M) (mdl : M)
    (m : String)
    (hp : strContains m PREDICT_TAG = false)
    (ht : strContains m TRAIN_TAG = false)
    (he : strLower m ≠ "exit") :
    handleMessage api mdl m =
      .ok ⟨["Processed message: " ++ squote ++ m ++ squote], mdl, false⟩ :=
  handleMessage_echo api mdl m hp ht he

theorem echo_fallback_verbatim_witness :
    strContains "hello #$%&" PREDICT_TAG = false ∧
    strContains "hello #$%&" TRAIN_TAG = false ∧
    strLower "hello #$%&" ≠ "exit" ∧
    handleMessage constApi () "hello #$%&" =
      .ok ⟨["Processed message: " ++ squote ++ "hello #$%&" ++ squote],
           (), false⟩ :=
  ⟨by decide, by decide, by decide,
   echo_fallback_verbatim constApi () "hello #$%&" (by decide) (by decide)
     (by decide)⟩

/-- Claim C7: dispatch priority is exit, then predict, then train, then
echo: a message containing both tags is handled by the predict branch - the
step equals the predict-branch computation - and training never runs (on
success the model is unchanged). -/
theorem dispatch_priority_predict_over_train {M : Type} (api : ModelApi M)
    (mdl : M) (m : String)
    (hp : strContains m PREDICT_TAG = true)
    (_ht : strContains m TRAIN_TAG = true) :
    handleMessage api mdl m =
      (match predict api mdl (strDrop m PREDICT_TAG_LEN) with
       | .ok r => .ok ⟨["predict:" ++ r], mdl, false⟩
       | .error f => .error f) ∧
    ∀ out, handleMessage api mdl m = .ok out → out.model = mdl := by
  have hne : strLower m ≠ "exit" :=
    contains_long_not_exit m PREDICT_TAG hp (by decide)
  have h1 : handleMessage api mdl m =
      (match predict api mdl (strDrop m PREDICT_TAG_LEN) with
       | .ok r => .ok ⟨["predict:" ++ r], mdl, false⟩
       | .error f => .error f) := by
    unfold handleMessage
    rw [if_neg hne, if_pos hp]
  refine ⟨h1, fun out hout => ?_⟩
  rw [h1] at hout
  cases hpr : predict api mdl (strDrop m PREDICT_TAG_LEN) with
  | ok r =>
    rw [hpr] at hout
    injection hout with h2
    rw [← h2]
  | error f =>
    rw [hpr] at hout
    exact absurd hout (by simp)

theorem dispatch_priority_predict_over_train_witness :
    strContains "predict:1,2,3,4,5,6,7,train:0" PREDICT_TAG = true ∧
    strContains "predict:1,2,3,4,5,6,7,train:0" TRAIN_TAG = true ∧
    (handleMessage constApi () "predict:1,2,3,4,5,6,7,train:0" =
      (match predict constApi ()
          (strDrop "predict:1,2,3,4,5,6,7,train:0" PREDICT_TAG_LEN) with
       | .ok r => .ok ⟨["predict:" ++ r], (), false⟩
       | .error f => .error f) ∧
     ∀ out, handleMessage constApi () "predict:1,2,3,4,5,6,7,train:0" =
        .ok out → out.model = ()) :=
  ⟨by decide, by decide,
   dispatch_priority_predict_over_train constApi ()
     "predict:1,2,3,4,5,6,7,train:0" (by decide) (by decide)⟩

/-- Claim C10: tag matching is case-sensitive, unlike the case-insensitive
exit check: a message containing "PREDICT:" or "Train:" but neither exact
lowercase tag is dispatched to the echo fallback. -/
theorem tag_matching_case_sensitive {M : Type} (api : ModelApi M) (mdl : M)
    (m : String)
    (hup : strContains m "PREDICT:" = true ∨ strContains m "Train:" = true)
    (hp : strContains m PREDICT_TAG = false)
    (ht : strContains m TRAIN_TAG = false) :
    handleMessage api mdl m =
      .ok ⟨["Processed message: " ++ squote ++ m ++ squote], mdl, false⟩ := by
  have hne : strLower m ≠ "exit" := by
    rcases hup with h | h
    · exact contains_long_not_exit m "PREDICT:" h (by decide)
    · exact contains_long_not_exit m "Train:" h (by decide)
  exact handleMessage_echo api mdl m hp ht hne

theorem tag_matching_case_sensitive_witness :
    (strContains "PREDICT:1,2,3,4,5,6,7" "PREDICT:" = true ∨
     strContains "PREDICT:1,2,3,4,5,6,7" "Train:" = true) ∧
    strContains "PREDICT:1,2,3,4,5,6,7" PREDICT_TAG = false ∧
    strContains "PREDICT:1,2,3,4,5,6,7" TRAIN_TAG = false ∧
    handleMessage constApi () "PREDICT:1,2,3,4,5,6,7" =
      .ok ⟨["Processed message: " ++ squote ++ "PREDICT:1,2,3,4,5,6,7"
              ++ squote], (), false⟩ :=
  ⟨Or.inl (by decide), by decide, by decide,
   tag_matching_case_sensitive constApi () "PREDICT:1,2,3,4,5,6,7"
     (Or.inl (by decide)) (by decide) (by decide)⟩

/-- Claim C3 counterexample: on this message the tag occurs after a
leading character and the handler does not strip the tag itself - it drops
the first `PREDICT_TAG_LEN` characters, losing the leading "x" and keeping
the ":" of the tag, so the remaining payload fails to decode and the step
faults instead of answering the decoded remainder. -/
theorem tag_strip_not_occurrence_cex :
    strContains "xpredict:1,2,3,4,5,6,7" PREDICT_TAG = true ∧
    strDrop "xpredict:1,2,3,4,5,6,7" PREDICT_TAG_LEN ≠
      stripTagSpec PREDICT_TAG "xpredict:1,2,3,4,5,6,7" ∧
    strDrop "xpredict:1,2,3,4,5,6,7" PREDICT_TAG_LEN = ":1,2,3,4,5,6,7" ∧
    stripTagSpec PREDICT_TAG "xpredict:1,2,3,4,5,6,7" = "x1,2,3,4,5,6,7" ∧
    handleMessage constApi () "xpredict:1,2,3,4,5,6,7" =
      .error (.formatError ":1,2,3,4,5,6,7") :=
  ⟨by decide, by decide, by decide, by decide, rfl⟩

/-- Claim C3 amended: on a tag match the handler drops a fixed-length
prefix of the message, `strDrop m TAG_LEN` (the embedding of
`message[TAG_LEN:]`), rather than stripping the tag occurrence; whenever
the message starts with the tag the two coincide.  (When the tag follows
leading characters the drop need not strip the tag occurrence - the
counterexample above - though on some such messages the two strings still
coincide by accident.) -/
theorem payload_drop_eq_strip_of_startsWith (tag m : String)
    (h : tag.data.isPrefixOf m.data = true) :
    strDrop m tag.length = stripTagSpec tag m := by
  have key : splitFirst tag.data m.data =
      some ([], m.data.drop tag.data.length) := by
    cases hm : m.data with
    | nil =>
      rw [hm] at h
      simp only [splitFirst]
      rw [if_pos h]
      simp [List.drop_nil]
    | cons c r =>
      rw [hm] at h
      simp only [splitFirst]
      rw [if_pos h]
  unfold stripTagSpec
  rw [key]
  rfl

theorem payload_drop_eq_strip_of_startsWith_witness :
    PREDICT_TAG.data.isPrefixOf ("predict:1,2,3,4,5,6,7" : String).data = true ∧
    strDrop "predict:1,2,3,4,5,6,7" PREDICT_TAG.length =
      stripTagSpec PREDICT_TAG "predict:1,2,3,4,5,6,7" :=
  ⟨by decide,
   payload_drop_eq_strip_of_startsWith PREDICT_TAG "predict:1,2,3,4,5,6,7"
     (by decide)⟩

/-- Claim C4 counterexample: a train payload with 10 well-formed numeric
fields decodes successfully although the count differs from 9 (the slices
`parsed[:7]` and `parsed[7:9]` use only the first 9 values), and a train
payload whose 10th field is non-numeric also decodes successfully - the
parser stops at the unmatched trailing field - so the handler replies
"Train done" instead of failing on the arity and field errors. -/
theorem decode_count_mismatch_accepted_cex :
    (splitFields "1,2,3,4,5,6,7,8,9,10").length = 10 ∧
    train constApi () "1,2,3,4,5,6,7,8,9,10" = .ok () ∧
    (splitFields "1,2,3,4,5,6,7,8,9,x").length = 10 ∧
    ['x'] ∈ splitFields "1,2,3,4,5,6,7,8,9,x" ∧
    isNumericField ['x'] = false ∧
    train constApi () "1,2,3,4,5,6,7,8,9,x" = .ok () ∧
    handleMessage constApi () "train:1,2,3,4,5,6,7,8,9,x" =
      .ok ⟨["Train done"], (), false⟩ :=
  ⟨by decide, rfl, by decide, by decide, by decide, rfl, rfl⟩

/-- Claim C4 amended: decoding parses numeric fields greedily from the
left and stops at the first field that is not a number; the predict decode
fails with a FormatError exactly when the number of parsed values differs
from 7, while the train decode fails exactly when fewer than 9 values
parse - values beyond the first 9 are ignored, not rejected. -/
theorem decode_failure_characterization {M : Type} (api : ModelApi M)
    (mdl : M) (data : String) :
    ((fromstring data).length = 7 →
      predict api mdl data =
        .ok (encode (api.predictFn mdl (fromstring data)))) ∧
    ((fromstring data).length ≠ 7 →
      predict api mdl data = .error (.formatError data)) ∧
    (9 ≤ (fromstring data).length →
      train api mdl data =
        .ok (api.fitStep mdl ((fromstring data).take 7)
          (((fromstring data).drop 7).take 2))) ∧
    ((fromstring data).length < 9 →
      train api mdl data = .error (.formatError data)) := by
  refine ⟨?_, ?_, ?_, ?_⟩
  · intro h
    simp only [predict]
    rw [if_pos h]
  · intro h
    simp only [predict]
    rw [if_neg h]
  · intro h
    have h7 : ((fromstring data).take 7).length = 7 := by
      rw [List.length_take]
      omega
    have h2 : (((fromstring data).drop 7).take 2).length = 2 := by
      rw [List.length_take, List.length_drop]
      omega
    simp only [train]
    rw [if_pos h7, if_pos h2]
  · intro h
    by_cases h7 : ((fromstring data).take 7).length = 7
    · have h2 : ¬(((fromstring data).drop 7).take 2).length = 2 := by
        rw [List.length_take, List.length_drop]
        omega
      simp only [train]
      rw [if_pos h7, if_neg h2]
    · simp only [train]
      rw [if_neg h7]

theorem decode_failure_characterization_witness :
    (fromstring "1,2,3,4,5,6,7,8,9,10").length = 10 ∧
    predict constApi () "1,2,3,4,5,6,7,8,9,10" =
      .error (.formatError "1,2,3,4,5,6,7,8,9,10") ∧
    train constApi () "1,2,3,4,5,6,7,8,9,10" =
      .ok (constApi.fitStep ()
        ((fromstring "1,2,3,4,5,6,7,8,9,10").take 7)
        (((fromstring "1,2,3,4,5,6,7,8,9,10").drop 7).take 2)) :=
  ⟨by decide,
   (decode_failure_characterization constApi () "1,2,3,4,5,6,7,8,9,10").2.1
     (by decide),
   (decode_failure_characterization constApi () "1,2,3,4,5,6,7,8,9,10").2.2.1
     (by decide)⟩

/-- Claim C8: predict requests do not mutate the session model: a predict
request, then any block of messages none of which is an exit or dispatches
to train and each of which is handled successfully, then the same predict
request again, yields the identical response both times and leaves the
model state unchanged; moreover any successful step either leaves the
model unchanged or was dispatched to the train branch. -/
theorem predict_pure_identical_responses {M : Type} (api : ModelApi M)
    (mdl : M) (m : String) (mids : List String) (r : String)
    (hp : strContains m PREDICT_TAG = true)
    (hr : predict api mdl (strDrop m PREDICT_TAG_LEN) = .ok r)
    (hmids : ∀ mid ∈ mids, strLower mid ≠ "exit" ∧
      strContains mid TRAIN_TAG = false ∧
      ∃ out, handleMessage api mdl mid = .ok out) :
    (∃ midSends,
      runLoop api mdl (m :: (mids ++ [m])) =
        ⟨("predict:" ++ r) :: (midSends ++ ["predict:" ++ r]), mdl,
         .transportClosed⟩) ∧
    (∀ msg out, handleMessage api mdl msg = .ok out →
      out.model = mdl ∨
        (strLower msg ≠ "exit" ∧ strContains msg PREDICT_TAG = false ∧
          strContains msg TRAIN_TAG = true)) := by
  have hne : strLower m ≠ "exit" :=
    contains_long_not_exit m PREDICT_TAG hp (by decide)
  have hstepm : handleMessage api mdl m =
      .ok ⟨["predict:" ++ r], mdl, false⟩ := by
    unfold handleMessage
    rw [if_neg hne, if_pos hp, hr]
  have hmid2 : ∀ mid ∈ mids, ∃ s,
      handleMessage api mdl mid = .ok ⟨[s], mdl, false⟩ := by
    intro mid hm
    obtain ⟨hex, htr, out, hout⟩ := hmids mid hm
    exact handleMessage_ok_shape api mdl mid out hout hex htr
  have htail : runLoop api mdl [m] =
      ⟨["predict:" ++ r], mdl, .transportClosed⟩ := by
    simp only [runLoop]
    rw [hstepm]
    rfl
  obtain ⟨midSends, hms⟩ := runLoop_nonmutating api mdl mids hmid2 [m]
  have hred : runLoop api mdl (m :: (mids ++ [m])) =
      ⟨["predict:" ++ r] ++ (runLoop api mdl (mids ++ [m])).sends,
       (runLoop api mdl (mids ++ [m])).model,
       (runLoop api mdl (mids ++ [m])).ending⟩ := by
    simp only [runLoop]
    rw [hstepm]
    rfl
  refine ⟨⟨midSends, ?_⟩, fun msg out hout =>
    (handleMessage_ok_anatomy api mdl msg out hout).2.2.2⟩
  rw [hred, hms, htail]
  rfl

theorem predict_pure_identical_responses_witness :
    (∃ midSends,
      runLoop constApi ()
          ("predict:1,2,3,4,5,6,7" :: (["hi"] ++ ["predict:1,2,3,4,5,6,7"])) =
        ⟨("predict:" ++
            encode (constApi.predictFn ()
              (fromstring (strDrop "predict:1,2,3,4,5,6,7" PREDICT_TAG_LEN)))) ::
           (midSends ++
            ["predict:" ++
              encode (constApi.predictFn ()
                (fromstring (strDrop "predict:1,2,3,4,5,6,7" PREDICT_TAG_LEN)))]),
         (), .transportClosed⟩) ∧
    (∀ msg out, handleMessage constApi () msg = .ok out →
      out.model = () ∨
        (strLower msg ≠ "exit" ∧ strContains msg PREDICT_TAG = false ∧
          strContains msg TRAIN_TAG = true)) := by
  apply predict_pure_identical_responses constApi () "predict:1,2,3,4,5,6,7"
    ["hi"]
    (encode (constApi.predictFn ()
      (fromstring (strDrop "predict:1,2,3,4,5,6,7" PREDICT_TAG_LEN))))
  · decide
  · simp only [predict]
    rw [if_pos (by decide :
      (fromstring (strDrop "predict:1,2,3,4,5,6,7" PREDICT_TAG_LEN)).length = 7)]
  · intro mid hm
    rw [List.mem_singleton] at hm
    subst hm
    exact ⟨by decide, by decide,
      ⟨["Processed message: " ++ squote ++ "hi" ++ squote], (), false⟩, rfl⟩

/-- Claim C9: the handler catches only the transport-close error, which is
non-fatal (the coroutine returns normally after a transport close, as after
a graceful exit), while a fault during decode/predict/fit is re-raised and
terminates the session at once - leaving the remaining messages
unprocessed - and the finally-block cleanup runs in every case. -/
theorem fault_and_cleanup_behavior {M : Type} (api : ModelApi M)
    (msgs : List String) :
    (runHandler api msgs).cleanupRan = true ∧
    ((runHandler api msgs).ending = .transportClosed →
      (runHandler api msgs).outcome = .returned) ∧
    ((runHandler api msgs).ending = .gracefulExit →
      (runHandler api msgs).outcome = .returned) ∧
    (∀ f, (runHandler api msgs).ending = .fault f →
      (runHandler api msgs).outcome = .raised f) ∧
    (∀ (mdl : M) (msg : String) (rest : List String) (f : Fault),
      handleMessage api mdl msg = .error f →
        runLoop api mdl (msg :: rest) = ⟨[], mdl, .fault f⟩) := by
  have hend : (runHandler api msgs).ending =
      (runLoop api api.init msgs).ending := rfl
  have hout : (runHandler api msgs).outcome =
      (match (runLoop api api.init msgs).ending with
       | .fault f => Outcome.raised f
       | .transportClosed => .returned
       | .gracefulExit => .returned) := rfl
  refine ⟨rfl, ?_, ?_, ?_, ?_⟩
  · intro h
    rw [hend] at h
    rw [hout, h]
  · intro h
    rw [hend] at h
    rw [hout, h]
  · intro f h
    rw [hend] at h
    rw [hout, h]
  · intro mdl msg rest f hf
    simp only [runLoop]
    rw [hf]

theorem fault_and_cleanup_behavior_witness :
    (runHandler constApi ["predict:x"]).cleanupRan = true ∧
    (runHandler constApi ["predict:x"]).ending =
      .fault (.formatError "x") ∧
    (runHandler constApi ["predict:x"]).outcome =
      .raised (.formatError "x") ∧
    runLoop constApi () ["predict:x"] = ⟨[], (), .fault (.formatError "x")⟩ :=
  ⟨(fault_and_cleanup_behavior constApi ["predict:x"]).1,
   by decide,
   (fault_and_cleanup_behavior constApi ["predict:x"]).2.2.2.1
     (.formatError "x") (by decide),
   (fault_and_cleanup_behavior constApi ["predict:x"]).2.2.2.2 () "predict:x"
     [] (.formatError "x") rfl⟩

end NN
